import Mathlib

/-!
Shallow embedding of `lib/strategy.js` (passport-microsoft): the
`MicrosoftStrategy` constructor with its option defaulting, the
`authorizationParams` hook, and the REST `userProfile` fetcher callback.
JavaScript values are modelled by the inductive `Json`; `undefined` is
modelled by `Option Json` being `none`; a JS object is an association
list.  `JSON.parse` is a platform function, so the fetcher callback takes
its outcome as an explicit `Except` argument.
-/

/-- A JavaScript (JSON-expressible) value.  Numbers are modelled as
integers, which covers every value the claims mention. -/
inductive Json where
  | null : Json
  | bool (b : Bool) : Json
  | num (n : Int) : Json
  | str (s : String) : Json
  | arr (elems : List Json) : Json
  | obj (fields : List (String × Json)) : Json

/-- A JavaScript object: an association list of string keys to values. -/
abbrev JsObj := List (String × Json)

/-- JavaScript truthiness of a defined value. -/
def jsTruthy : Json → Bool
  | .null => false
  | .bool b => b
  | .num n => n != 0
  | .str s => s != ""
  | .arr _ => true
  | .obj _ => true

/-- JavaScript truthiness of a possibly-undefined value
(`none` is `undefined`, which is falsy). -/
def jsTruthyOpt : Option Json → Bool
  | some v => jsTruthy v
  | none => false

/-- Property read `o[key]`: `none` when the key is absent (`undefined`). -/
def lookupKV : JsObj → String → Option Json
  | [], _ => none
  | (k, w) :: rest, key => if k = key then some w else lookupKV rest key

/-- Property write `o[key] = v`: replaces the first binding of `key`
in place, or appends a new binding when the key is absent. -/
def setKV : JsObj → String → Json → JsObj
  | [], key, v => [(key, v)]
  | (k, w) :: rest, key, v =>
      if k = key then (key, v) :: rest else (k, w) :: setKV rest key v

/-- The JS idiom `a || b` applied to a possibly-undefined `a`. -/
def jsOr (a : Option Json) (b : Json) : Json :=
  match a with
  | some v => if jsTruthy v then v else b
  | none => b

/-- JavaScript stringification as used by template interpolation. -/
def jsToString : Json → String
  | .null => "null"
  | .bool b => cond b "true" "false"
  | .num n => toString n
  | .str s => s
  | .obj _ => "[object Object]"
  | .arr [] => ""
  | .arr [j] => jsToString j
  | .arr (j :: k :: rest) => jsToString j ++ "," ++ jsToString (.arr (k :: rest))

/-- `const tenant = options.tenant || 'common';` -/
def tenantOf (options : JsObj) : Json :=
  jsOr (lookupKV options "tenant") (Json.str "common")

/-- The derived authorization endpoint template. -/
def authorizeURLFor (tenant : Json) : String :=
  "https://login.microsoftonline.com/" ++ jsToString tenant ++
    "/oauth2/v2.0/authorize"

/-- The derived token endpoint template. -/
def tokenURLFor (tenant : Json) : String :=
  "https://login.microsoftonline.com/" ++ jsToString tenant ++
    "/oauth2/v2.0/token"

/-- The JS `key in o` operator. -/
def hasKey (options : JsObj) (key : String) : Bool :=
  (lookupKV options key).isSome

/-- The strategy instance fields the constructor sets on `this`. -/
structure Strategy where
  name : String
  graphApiVersion : Json
  addUPNAsEmail : Json
  apiEntryPoint : Json

/-- The `MicrosoftStrategy` constructor: `none` models calling it with
`options` omitted/`undefined`.  Returns the options object as mutated by
the constructor (the same object is then handed to the `OAuth2Strategy`
base, which is out of scope) together with the instance fields. -/
def MicrosoftStrategy (options0 : Option JsObj) : JsObj × Strategy :=
  let options := options0.getD []
  let tenant := tenantOf options
  let o1 := setKV options "authorizationURL"
      (jsOr (lookupKV options "authorizationURL") (Json.str (authorizeURLFor tenant)))
  let o2 := setKV o1 "tokenURL"
      (jsOr (lookupKV o1 "tokenURL") (Json.str (tokenURLFor tenant)))
  let o3 := setKV o2 "scopeSeparator"
      (jsOr (lookupKV o2 "scopeSeparator") (Json.str " "))
  let o4 := setKV o3 "customHeaders"
      (jsOr (lookupKV o3 "customHeaders") (Json.obj []))
  let o5 := setKV o4 "apiEntryPoint"
      (jsOr (lookupKV o4 "apiEntryPoint") (Json.str "https://graph.microsoft.com"))
  (o5,
    { name := "microsoft"
      graphApiVersion := jsOr (lookupKV o5 "graphApiVersion") (Json.str "v1.0")
      addUPNAsEmail :=
        if hasKey o5 "addUPNAsEmail" then (lookupKV o5 "addUPNAsEmail").getD Json.null
        else Json.bool false
      apiEntryPoint := (lookupKV o5 "apiEntryPoint").getD Json.null })

/-- The allow-list iterated by `authorizationParams`. -/
def authParamNames : List String :=
  ["locale", "display", "prompt", "login_hint", "domain_hint"]

/-- `MicrosoftStrategy.prototype.authorizationParams`: copy each
allow-listed key whose value in `options` is truthy into a fresh object. -/
def authorizationParams (options : JsObj) : JsObj :=
  authParamNames.foldl
    (fun params name =>
      match lookupKV options name with
      | some v => if jsTruthy v then setKV params name v else params
      | none => params)
    []

/-- An entry of the profile's `emails` array. -/
structure Email where
  type : String
  value : Json

/-- The profile's nested `name` object. -/
structure ProfileName where
  familyName : Option Json
  givenName : Option Json

/-- The normalized profile the REST fetcher builds (`_raw`/`_json` are the
`raw`/`json` fields here). -/
structure Profile where
  provider : String
  id : Option Json
  displayName : Option Json
  name : ProfileName
  userPrincipalName : Option Json
  emails : List Email
  raw : String
  json : Json

/-- A JavaScript exception value (only the kinds this code can raise). -/
inductive JsError where
  | typeError (msg : String)
  | parseError (msg : String)

/-- Property read `j.key` on a parsed JSON value: reading a property of
`null` throws a TypeError; on any other non-object value it yields
`undefined`. -/
def getField (j : Json) (key : String) : Except JsError (Option Json) :=
  match j with
  | .null => .error (.typeError ("Cannot read properties of null: " ++ key))
  | .obj fields => .ok (lookupKV fields key)
  | _ => .ok none

/-- Pure variant of `getField` for values on which property access
cannot throw (everything but `null`). -/
def jsGet (j : Json) (key : String) : Option Json :=
  match j with
  | .obj fields => lookupKV fields key
  | _ => none

/-- The platform function `String.prototype.trim()`: strip leading and
trailing whitespace. -/
def jsTrim (s : String) : String :=
  String.mk (((s.toList.dropWhile Char.isWhitespace).reverse.dropWhile
    Char.isWhitespace).reverse)

/-- `var isNotEmpty = str => str && typeof str === 'string' && str.trim().length;`
applied to a possibly-undefined value, read as a boolean. -/
def isNotEmpty : Option Json → Bool
  | some (.str s) => (jsTrim s).length != 0
  | _ => false

/-- The body of the `try` block of the REST `userProfile` callback, after
`JSON.parse` succeeded with `json`: field mapping and email assembly.
`addUPNAsEmail` is the raw `_addUPNAsEmail` strategy field (tested for
truthiness, as `&&` does). -/
def mkProfile (addUPNAsEmail : Json) (body : String) (json : Json) :
    Except JsError Profile :=
  (getField json "id").bind fun id =>
  (getField json "displayName").bind fun displayName =>
  (getField json "surname").bind fun surname =>
  (getField json "givenName").bind fun givenName =>
  (getField json "userPrincipalName").bind fun upn =>
  (getField json "mail").bind fun mail =>
  let emails0 : List Email := []
  let emails1 :=
    if isNotEmpty mail then emails0 ++ [⟨"work", mail.getD Json.null⟩] else emails0
  let emails2 :=
    if jsTruthy addUPNAsEmail && isNotEmpty upn then
      emails1 ++ [⟨"work", upn.getD Json.null⟩]
    else emails1
  .ok { provider := "microsoft"
        id := id
        displayName := displayName
        name := { familyName := surname, givenName := givenName }
        userPrincipalName := upn
        emails := emails2
        raw := body
        json := json }

/-- What `done` is called with as its error argument. -/
inductive JsErr where
  | raw (e : JsError)
  | internalOAuthError (msg : String) (cause : Option JsError)

/-- A single invocation of the completion callback `done`:
`failure e` is `done(e)` (no profile argument), `success p` is
`done(null, p)`. -/
inductive DoneCall where
  | failure (e : JsErr)
  | success (p : Profile)

/-- The response callback inside `userProfile`: `err` is the transport
error argument, `body` the response body, and `parsed` the outcome of the
platform call `JSON.parse(body)` (error = the raw exception it threw). -/
def userProfileCallback (addUPNAsEmail : Json) (err : Option JsError)
    (body : String) (parsed : Except JsError Json) : DoneCall :=
  match err with
  | some e => .failure (.internalOAuthError "failed to fetch user profile" (some e))
  | none =>
      match parsed.bind (mkProfile addUPNAsEmail body) with
      | .ok p => .success p
      | .error e => .failure (.raw e)

/-- The message of the error a `DoneCall` delivers, when it delivers a
wrapped error. -/
def doneErrMessage : DoneCall → Option String
  | .failure (.internalOAuthError m _) => some m
  | _ => none

/-- Modelled from the spec: the SOAP-variant profile fetcher is not among
the repository files; per the spec, a SOAP fault carries a `faultstring`
and possibly a nested provider-specific error message under the fault
detail structure. -/
structure SoapFault where
  faultstring : String
  detailMessage : Option String

/-- Modelled from the spec: the error message extracted from a SOAP
fault — the nested provider message when present, else `faultstring`. -/
def soapFaultMessage (f : SoapFault) : String :=
  match f.detailMessage with
  | some m => m
  | none => f.faultstring

/-- Modelled from the spec: on a SOAP fault the fetcher reports a single
wrapped upstream-fetch error with the extracted message via `done`. -/
def soapFaultDone (f : SoapFault) : DoneCall :=
  .failure (.internalOAuthError (soapFaultMessage f) none)

/-- The spec's blank-mail example response, parsed: `mail` is the empty
string and `userPrincipalName` is `a@b.com`. -/
def blankMailExample : Json :=
  Json.obj [("mail", Json.str ""), ("userPrincipalName", Json.str "a@b.com")]

/-- The profile the REST mapping builds from `blankMailExample` with the
alternate-email flag on. -/
def blankMailProfile : Profile :=
  { provider := "microsoft", id := none, displayName := none,
    name := { familyName := none, givenName := none },
    userPrincipalName := some (Json.str "a@b.com"),
    emails := [⟨"work", Json.str "a@b.com"⟩],
    raw := "body", json := blankMailExample }

/-- A fully populated example response for the REST mapping. -/
def restProfileExample : Json :=
  Json.obj [("id", Json.str "1"), ("displayName", Json.str "A B"),
    ("surname", Json.str "B"), ("givenName", Json.str "A"),
    ("userPrincipalName", Json.str "u@b.com"), ("mail", Json.str "a@b.com")]

/-- The profile the REST mapping builds from `restProfileExample` with the
alternate-email flag off. -/
def restProfileMapped : Profile :=
  { provider := "microsoft", id := some (Json.str "1"),
    displayName := some (Json.str "A B"),
    name := { familyName := some (Json.str "B"),
              givenName := some (Json.str "A") },
    userPrincipalName := some (Json.str "u@b.com"),
    emails := [⟨"work", Json.str "a@b.com"⟩],
    raw := "raw", json := restProfileExample }

/-! ### Helper lemmas -/

theorem lookupKV_setKV_same (o : JsObj) (key : String) (v : Json) :
    lookupKV (setKV o key v) key = some v := by
  induction o with
  | nil => simp [setKV, lookupKV]
  | cons p rest ih =>
    obtain ⟨k, w⟩ := p
    by_cases h : k = key <;> simp [setKV, lookupKV, h, ih]

theorem lookupKV_setKV_other (o : JsObj) (key key2 : String) (v : Json)
    (h : key2 ≠ key) : lookupKV (setKV o key v) key2 = lookupKV o key2 := by
  induction o with
  | nil => simp [setKV, lookupKV, Ne.symm h]
  | cons p rest ih =>
    obtain ⟨k, w⟩ := p
    by_cases hk : k = key
    · subst hk
      simp [setKV, lookupKV, Ne.symm h]
    · simp [setKV, lookupKV, hk, ih]

theorem setKV_append (o : JsObj) (key : String) (v : Json)
    (h : ∀ p ∈ o, p.1 ≠ key) : setKV o key v = o ++ [(key, v)] := by
  induction o with
  | nil => rfl
  | cons p rest ih =>
    obtain ⟨k, w⟩ := p
    have hk : k ≠ key := h (k, w) (by simp)
    simp [setKV, hk, ih (fun q hq => h q (by simp [hq]))]

theorem jsOr_of_not_truthy (a : Option Json) (b : Json)
    (h : jsTruthyOpt a = false) : jsOr a b = b := by
  cases a <;> simp_all [jsOr, jsTruthyOpt]

theorem jsOr_of_truthy (v : Json) (b : Json) (h : jsTruthy v = true) :
    jsOr (some v) b = v := by simp [jsOr, h]

theorem jsTruthy_jsOr (a : Option Json) (b : Json) (h : jsTruthy b = true) :
    jsTruthy (jsOr a b) = true := by
  cases a with
  | none => simpa [jsOr]
  | some v => by_cases hv : jsTruthy v <;> simp [jsOr, hv, h]

/-- Membership in the fold that builds `authorizationParams`, for any
duplicate-free remaining allow-list and any accumulator whose keys are
disjoint from it. -/
theorem mem_authParams_foldl (options : JsObj) (names : List String) (params : JsObj)
    (hnd : names.Nodup)
    (hdisj : ∀ p ∈ params, p.1 ∉ names) (k : String) (v : Json) :
    ((k, v) ∈ names.foldl
      (fun params name =>
        match lookupKV options name with
        | some w => if jsTruthy w then setKV params name w else params
        | none => params) params) ↔
      ((k, v) ∈ params ∨ (k ∈ names ∧ lookupKV options k = some v ∧ jsTruthy v = true)) := by
  induction names generalizing params with
  | nil => simp
  | cons n ns ih =>
    rw [List.foldl_cons]
    have hnd2 : ns.Nodup := (List.nodup_cons.mp hnd).2
    have hn : n ∉ ns := (List.nodup_cons.mp hnd).1
    have hdisj2 : ∀ p ∈ params, p.1 ∉ ns :=
      fun p hp hm => hdisj p hp (List.mem_cons_of_mem _ hm)
    rcases h : lookupKV options n with _ | w
    · simp only [h]
      rw [ih params hnd2 hdisj2]
      constructor
      · rintro (hp | ⟨hks, hP⟩)
        · exact Or.inl hp
        · exact Or.inr ⟨List.mem_cons_of_mem _ hks, hP⟩
      · rintro (hp | ⟨hk, hP⟩)
        · exact Or.inl hp
        · rcases List.mem_cons.mp hk with rfl | hks
          · simp [h] at hP
          · exact Or.inr ⟨hks, hP⟩
    · simp only [h]
      by_cases hw : jsTruthy w
      · rw [if_pos hw, setKV_append params n w
          (fun p hp he => hdisj p hp (by rw [he]; exact List.mem_cons_self n ns))]
        have hdisj3 : ∀ p ∈ params ++ [(n, w)], p.1 ∉ ns := by
          intro p hp
          rcases List.mem_append.mp hp with hp1 | hp2
          · exact hdisj2 p hp1
          · simp at hp2
            subst hp2
            exact hn
        rw [ih _ hnd2 hdisj3]
        constructor
        · rintro (hp | ⟨hks, hP⟩)
          · rcases List.mem_append.mp hp with hp1 | hp2
            · exact Or.inl hp1
            · simp at hp2
              obtain ⟨rfl, rfl⟩ := hp2
              exact Or.inr ⟨List.mem_cons_self _ _, h, hw⟩
          · exact Or.inr ⟨List.mem_cons_of_mem _ hks, hP⟩
        · rintro (hp | ⟨hk, hP⟩)
          · exact Or.inl (List.mem_append.mpr (Or.inl hp))
          · rcases List.mem_cons.mp hk with rfl | hks
            · obtain ⟨hv, hvt⟩ := hP
              rw [h] at hv
              injection hv with hwv
              subst hwv
              exact Or.inl (List.mem_append.mpr (Or.inr (by simp)))
            · exact Or.inr ⟨hks, hP⟩
      · rw [if_neg hw]
        rw [ih params hnd2 hdisj2]
        constructor
        · rintro (hp | ⟨hks, hP⟩)
          · exact Or.inl hp
          · exact Or.inr ⟨List.mem_cons_of_mem _ hks, hP⟩
        · rintro (hp | ⟨hk, hP⟩)
          · exact Or.inl hp
          · rcases List.mem_cons.mp hk with rfl | hks
            · obtain ⟨hv, hvt⟩ := hP
              rw [h] at hv
              injection hv with hwv
              subst hwv
              exact absurd hvt hw
            · exact Or.inr ⟨hks, hP⟩

theorem lookup_MS_authorizationURL (o : JsObj) :
    lookupKV (MicrosoftStrategy (some o)).1 "authorizationURL" =
      some (jsOr (lookupKV o "authorizationURL")
        (Json.str (authorizeURLFor (tenantOf o)))) := by
  simp [MicrosoftStrategy, lookupKV_setKV_other, lookupKV_setKV_same]

theorem lookup_MS_tokenURL (o : JsObj) :
    lookupKV (MicrosoftStrategy (some o)).1 "tokenURL" =
      some (jsOr (lookupKV o "tokenURL")
        (Json.str (tokenURLFor (tenantOf o)))) := by
  simp [MicrosoftStrategy, lookupKV_setKV_other, lookupKV_setKV_same]

theorem lookup_MS_scopeSeparator (o : JsObj) :
    lookupKV (MicrosoftStrategy (some o)).1 "scopeSeparator" =
      some (jsOr (lookupKV o "scopeSeparator") (Json.str " ")) := by
  simp [MicrosoftStrategy, lookupKV_setKV_other, lookupKV_setKV_same]

theorem lookup_MS_customHeaders (o : JsObj) :
    lookupKV (MicrosoftStrategy (some o)).1 "customHeaders" =
      some (jsOr (lookupKV o "customHeaders") (Json.obj [])) := by
  simp [MicrosoftStrategy, lookupKV_setKV_other, lookupKV_setKV_same]

theorem lookup_MS_apiEntryPoint (o : JsObj) :
    lookupKV (MicrosoftStrategy (some o)).1 "apiEntryPoint" =
      some (jsOr (lookupKV o "apiEntryPoint")
        (Json.str "https://graph.microsoft.com")) := by
  simp [MicrosoftStrategy, lookupKV_setKV_other, lookupKV_setKV_same]

theorem lookup_MS_frame (o : JsObj) (k : String)
    (h : k ∉ (["authorizationURL", "tokenURL", "scopeSeparator",
      "customHeaders", "apiEntryPoint"] : List String)) :
    lookupKV (MicrosoftStrategy (some o)).1 k = lookupKV o k := by
  simp at h
  obtain ⟨h1, h2, h3, h4, h5⟩ := h
  simp [MicrosoftStrategy, lookupKV_setKV_other _ _ _ _ h1,
    lookupKV_setKV_other _ _ _ _ h2, lookupKV_setKV_other _ _ _ _ h3,
    lookupKV_setKV_other _ _ _ _ h4, lookupKV_setKV_other _ _ _ _ h5]

theorem MS_fields (o : JsObj) :
    (MicrosoftStrategy (some o)).2 =
      { name := "microsoft"
        graphApiVersion := jsOr (lookupKV o "graphApiVersion") (Json.str "v1.0")
        addUPNAsEmail :=
          if hasKey o "addUPNAsEmail" then (lookupKV o "addUPNAsEmail").getD Json.null
          else Json.bool false
        apiEntryPoint := jsOr (lookupKV o "apiEntryPoint")
          (Json.str "https://graph.microsoft.com") } := by
  simp [MicrosoftStrategy, hasKey, lookupKV_setKV_other, lookupKV_setKV_same]

theorem jsTruthy_authorizeURLFor (t : Json) :
    jsTruthy (Json.str (authorizeURLFor t)) = true := by
  simp only [jsTruthy, authorizeURLFor]
  rw [bne_iff_ne]
  intro h
  have hl := congrArg String.length h
  rw [String.length_append, String.length_append] at hl
  have h1 : (0 : Nat) < ("https://login.microsoftonline.com/" : String).length := by decide
  have h2 : ("" : String).length = 0 := by decide
  omega

theorem jsTruthy_tokenURLFor (t : Json) :
    jsTruthy (Json.str (tokenURLFor t)) = true := by
  simp only [jsTruthy, tokenURLFor]
  rw [bne_iff_ne]
  intro h
  have hl := congrArg String.length h
  rw [String.length_append, String.length_append] at hl
  have h1 : (0 : Nat) < ("https://login.microsoftonline.com/" : String).length := by decide
  have h2 : ("" : String).length = 0 := by decide
  omega

/-! ### Claims -/

/-- C1: for every JSON profile response from which a profile is delivered,
the emails list starts empty, gets `{type: work, value: mail}` only if
`mail` is a non-empty string after trimming, and, only when the
alternate-email (`addUPNAsEmail`) flag is truthy, additionally gets
`{type: work, value: userPrincipalName}` under the same
non-empty-string-after-trimming check, the primary mail entry preceding
the alternate entry. -/
theorem userProfile_emails_spec (addUPNAsEmail : Json) (body : String) (j : Json)
    (p : Profile) (h : mkProfile addUPNAsEmail body j = Except.ok p) :
    p.emails =
      (if isNotEmpty (jsGet j "mail") then
        [⟨"work", (jsGet j "mail").getD Json.null⟩] else []) ++
      (if jsTruthy addUPNAsEmail && isNotEmpty (jsGet j "userPrincipalName") then
        [⟨"work", (jsGet j "userPrincipalName").getD Json.null⟩] else []) := by
  cases j
  case null => exact absurd h (by simp [mkProfile, getField, Except.bind])
  all_goals
    simp only [mkProfile, getField, Except.bind, Except.ok.injEq] at h
    subst h
    simp only [jsGet]
    split_ifs <;> simp_all

/-- C1 witness: the spec's example — blank `mail`, flag on,
`userPrincipalName` set — yields exactly the one alternate email. -/
theorem userProfile_emails_spec_witness :
    mkProfile (Json.bool true) "body" blankMailExample =
      Except.ok blankMailProfile ∧
    blankMailProfile.emails =
      (if isNotEmpty (jsGet blankMailExample "mail") then
        [⟨"work", (jsGet blankMailExample "mail").getD Json.null⟩] else []) ++
      (if jsTruthy (Json.bool true) &&
          isNotEmpty (jsGet blankMailExample "userPrincipalName") then
        [⟨"work", (jsGet blankMailExample "userPrincipalName").getD Json.null⟩]
      else []) := by
  have h1 : ¬("a@b.com".length = 0) := by decide
  have h3 : ("" : String).length = 0 := by decide
  refine ⟨?_, userProfile_emails_spec (Json.bool true) "body" blankMailExample
    blankMailProfile ?_⟩ <;>
    simp [mkProfile, blankMailExample, blankMailProfile, getField, lookupKV,
      isNotEmpty, jsTrim, jsTruthy, Except.bind, h1, h3]

/-- C2: `authorizationParams` returns exactly the allow-listed keys
(`locale`, `display`, `prompt`, `login_hint`, `domain_hint`) whose value
in the input is truthy, copied verbatim; every other input key is
dropped.  Totality of the definition gives the rest of the claim: the
result is always a (possibly empty) object and no error is raised. -/
theorem authorizationParams_exact (options : JsObj) (k : String) (v : Json) :
    ((k, v) ∈ authorizationParams options) ↔
      (k ∈ authParamNames ∧ lookupKV options k = some v ∧ jsTruthy v = true) := by
  unfold authorizationParams
  rw [mem_authParams_foldl options authParamNames [] (by decide) (by simp)]
  simp

/-- C3 counterexample: the caller supplies `authorizationURL` explicitly
(the empty string), yet the constructor does not keep it verbatim — the
`||` defaulting replaces every falsy supplied value. -/
theorem MS_url_falsy_not_verbatim :
    lookupKV (MicrosoftStrategy (some [("authorizationURL", Json.str "")])).1
      "authorizationURL" ≠ some (Json.str "") := by
  rw [lookup_MS_authorizationURL]
  have hl : lookupKV [("authorizationURL", Json.str "")] "authorizationURL" =
      some (Json.str "") := by simp [lookupKV]
  rw [hl, jsOr_of_not_truthy _ _ (by simp [jsTruthyOpt, jsTruthy])]
  intro hc
  injection hc with hc2
  injection hc2 with hc3
  have ht := jsTruthy_authorizeURLFor (tenantOf [("authorizationURL", Json.str "")])
  rw [hc3] at ht
  simp [jsTruthy] at ht

/-- C3 (amended): the tenant defaults to `common` when absent or falsy and
is kept when supplied truthy; when the caller supplies no truthy
`authorizationURL`/`tokenURL`, construction derives them from the
`https://login.microsoftonline.com/{tenant}/oauth2/v2.0/...` templates;
a supplied truthy URL is used verbatim (a falsy supplied one is treated
as absent). -/
theorem MS_url_derivation (o : JsObj) :
    (jsTruthyOpt (lookupKV o "tenant") = false → tenantOf o = Json.str "common") ∧
    (∀ t, lookupKV o "tenant" = some t → jsTruthy t = true → tenantOf o = t) ∧
    (∀ s, authorizeURLFor (Json.str s) =
      "https://login.microsoftonline.com/" ++ s ++ "/oauth2/v2.0/authorize") ∧
    (∀ s, tokenURLFor (Json.str s) =
      "https://login.microsoftonline.com/" ++ s ++ "/oauth2/v2.0/token") ∧
    (jsTruthyOpt (lookupKV o "authorizationURL") = false →
      lookupKV (MicrosoftStrategy (some o)).1 "authorizationURL" =
        some (Json.str (authorizeURLFor (tenantOf o)))) ∧
    (jsTruthyOpt (lookupKV o "tokenURL") = false →
      lookupKV (MicrosoftStrategy (some o)).1 "tokenURL" =
        some (Json.str (tokenURLFor (tenantOf o)))) ∧
    (∀ u, lookupKV o "authorizationURL" = some u → jsTruthy u = true →
      lookupKV (MicrosoftStrategy (some o)).1 "authorizationURL" = some u) ∧
    (∀ u, lookupKV o "tokenURL" = some u → jsTruthy u = true →
      lookupKV (MicrosoftStrategy (some o)).1 "tokenURL" = some u) := by
  refine ⟨?_, ?_, ?_, ?_, ?_, ?_, ?_, ?_⟩
  · intro h
    exact jsOr_of_not_truthy _ _ h
  · intro t ht htt
    unfold tenantOf
    rw [ht, jsOr_of_truthy _ _ htt]
  · intro s
    simp [authorizeURLFor, jsToString]
  · intro s
    simp [tokenURLFor, jsToString]
  · intro h
    rw [lookup_MS_authorizationURL, jsOr_of_not_truthy _ _ h]
  · intro h
    rw [lookup_MS_tokenURL, jsOr_of_not_truthy _ _ h]
  · intro u hu hut
    rw [lookup_MS_authorizationURL, hu, jsOr_of_truthy _ _ hut]
  · intro u hu hut
    rw [lookup_MS_tokenURL, hu, jsOr_of_truthy _ _ hut]

/-- C4: when `JSON.parse` fails on the response body (or any exception is
raised during profile mapping), `done` is invoked with the raw exception
alone, not wrapped in the upstream-error type. -/
theorem userProfile_rawError (addUPNAsEmail : Json) (body : String)
    (parsed : Except JsError Json) (e : JsError)
    (h : parsed.bind (mkProfile addUPNAsEmail body) = Except.error e) :
    userProfileCallback addUPNAsEmail none body parsed =
      DoneCall.failure (JsErr.raw e) := by
  simp [userProfileCallback, h]

/-- C4 witness: a parse failure reaches `done` raw. -/
theorem userProfile_rawError_witness :
    userProfileCallback (Json.bool false) none "not json"
      (Except.error (JsError.parseError "Unexpected token")) =
      DoneCall.failure (JsErr.raw (JsError.parseError "Unexpected token")) :=
  userProfile_rawError _ _ _ _ rfl

/-- C5: on a transport error the REST fetcher invokes `done` with the
wrapped upstream-fetch error (message `failed to fetch user profile`)
carrying the original error as cause, and no profile alongside. -/
theorem userProfile_transportError (addUPNAsEmail : Json) (e : JsError)
    (body : String) (parsed : Except JsError Json) :
    userProfileCallback addUPNAsEmail (some e) body parsed =
      DoneCall.failure
        (JsErr.internalOAuthError "failed to fetch user profile" (some e)) := rfl

/-- C6: every delivered profile has provider `microsoft`; `id`,
`displayName` and top-level `userPrincipalName` copied verbatim from the
same-named JSON fields; `name.familyName` from `surname`;
`name.givenName` from `givenName`; and carries the raw body and the
parsed JSON object. -/
theorem userProfile_fields (addUPNAsEmail : Json) (body : String) (j : Json)
    (p : Profile) (h : mkProfile addUPNAsEmail body j = Except.ok p) :
    p.provider = "microsoft" ∧ p.id = jsGet j "id" ∧
    p.displayName = jsGet j "displayName" ∧
    p.name.familyName = jsGet j "surname" ∧
    p.name.givenName = jsGet j "givenName" ∧
    p.userPrincipalName = jsGet j "userPrincipalName" ∧
    p.raw = body ∧ p.json = j := by
  cases j
  case null => exact absurd h (by simp [mkProfile, getField, Except.bind])
  all_goals
    simp only [mkProfile, getField, Except.bind, Except.ok.injEq] at h
    subst h
    simp [jsGet]

/-- C6 witness: a fully populated response maps to the expected profile. -/
theorem userProfile_fields_witness :
    mkProfile (Json.bool false) "raw" restProfileExample =
      Except.ok restProfileMapped ∧
    (restProfileMapped.provider = "microsoft" ∧
     restProfileMapped.id = jsGet restProfileExample "id" ∧
     restProfileMapped.displayName = jsGet restProfileExample "displayName" ∧
     restProfileMapped.name.familyName = jsGet restProfileExample "surname" ∧
     restProfileMapped.name.givenName = jsGet restProfileExample "givenName" ∧
     restProfileMapped.userPrincipalName =
       jsGet restProfileExample "userPrincipalName" ∧
     restProfileMapped.raw = "raw" ∧
     restProfileMapped.json = restProfileExample) := by
  have h1 : ¬("a@b.com".length = 0) := by decide
  have h2 : ¬("u@b.com".length = 0) := by decide
  refine ⟨?_, userProfile_fields (Json.bool false) "raw" restProfileExample
    restProfileMapped ?_⟩ <;>
    simp [mkProfile, restProfileExample, restProfileMapped, getField, lookupKV,
      isNotEmpty, jsTrim, jsTruthy, Except.bind, h1, h2]

/-- C7: after construction, `scopeSeparator` is a single space unless the
caller supplied a truthy value, `customHeaders` is an empty object unless
supplied, the API entry point is `https://graph.microsoft.com` unless
supplied, the API version is `v1.0` unless supplied, the alternate-email
flag is `false` unless the key is present, and the strategy's name is
`microsoft`. -/
theorem MS_defaults (o : JsObj) :
    (jsTruthyOpt (lookupKV o "scopeSeparator") = false →
      lookupKV (MicrosoftStrategy (some o)).1 "scopeSeparator" =
        some (Json.str " ")) ∧
    (lookupKV o "customHeaders" = none →
      lookupKV (MicrosoftStrategy (some o)).1 "customHeaders" =
        some (Json.obj [])) ∧
    (lookupKV o "apiEntryPoint" = none →
      (MicrosoftStrategy (some o)).2.apiEntryPoint =
        Json.str "https://graph.microsoft.com") ∧
    (lookupKV o "graphApiVersion" = none →
      (MicrosoftStrategy (some o)).2.graphApiVersion = Json.str "v1.0") ∧
    (lookupKV o "addUPNAsEmail" = none →
      (MicrosoftStrategy (some o)).2.addUPNAsEmail = Json.bool false) ∧
    (MicrosoftStrategy (some o)).2.name = "microsoft" := by
  refine ⟨?_, ?_, ?_, ?_, ?_, ?_⟩
  · intro h
    rw [lookup_MS_scopeSeparator, jsOr_of_not_truthy _ _ h]
  · intro h
    rw [lookup_MS_customHeaders, jsOr_of_not_truthy _ _ (by simp [jsTruthyOpt, h])]
  · intro h
    rw [MS_fields]
    simp [jsOr_of_not_truthy _ _
      (by simp [jsTruthyOpt, h] : jsTruthyOpt (lookupKV o "apiEntryPoint") = false)]
  · intro h
    rw [MS_fields]
    simp [jsOr_of_not_truthy _ _
      (by simp [jsTruthyOpt, h] : jsTruthyOpt (lookupKV o "graphApiVersion") = false)]
  · intro h
    rw [MS_fields]
    simp [hasKey, h]
  · rw [MS_fields]

/-- C8: constructing with `options` omitted (`undefined`) runs the whole
defaulting step on a substituted empty object — it is the same total
computation as constructing with `{}`, and produces the fully defaulted
configuration (the subsequent delegation to the OAuth2 base is out of
scope). -/
theorem MS_undefined_options :
    MicrosoftStrategy none = MicrosoftStrategy (some []) ∧
    (MicrosoftStrategy none).1 =
      [("authorizationURL",
          Json.str "https://login.microsoftonline.com/common/oauth2/v2.0/authorize"),
       ("tokenURL",
          Json.str "https://login.microsoftonline.com/common/oauth2/v2.0/token"),
       ("scopeSeparator", Json.str " "),
       ("customHeaders", Json.obj []),
       ("apiEntryPoint", Json.str "https://graph.microsoft.com")] ∧
    (MicrosoftStrategy none).2 =
      { name := "microsoft", graphApiVersion := Json.str "v1.0",
        addUPNAsEmail := Json.bool false,
        apiEntryPoint := Json.str "https://graph.microsoft.com" } := by
  have ha : ("https://login.microsoftonline.com/" ++
      ("common" ++ "/oauth2/v2.0/authorize") : String) =
      "https://login.microsoftonline.com/common/oauth2/v2.0/authorize" := by decide
  have ht : ("https://login.microsoftonline.com/" ++
      ("common" ++ "/oauth2/v2.0/token") : String) =
      "https://login.microsoftonline.com/common/oauth2/v2.0/token" := by decide
  refine ⟨rfl, ?_, ?_⟩ <;>
    simp [MicrosoftStrategy, setKV, lookupKV, jsOr, jsTruthy, jsTruthyOpt,
      tenantOf, hasKey, authorizeURLFor, tokenURLFor, jsToString, ha, ht]

/-- C9: in the SOAP-variant fetcher (modelled from the spec), a fault with
a nested provider error message reports that message through the
completion callback, taking precedence over the envelope `faultstring`;
without nested detail, the `faultstring` is reported. -/
theorem soapFault_message_preference (f : SoapFault) :
    (∀ m, f.detailMessage = some m →
      doneErrMessage (soapFaultDone f) = some m) ∧
    (f.detailMessage = none →
      doneErrMessage (soapFaultDone f) = some f.faultstring) := by
  constructor
  · intro m hm
    simp [soapFaultDone, doneErrMessage, soapFaultMessage, hm]
  · intro hm
    simp [soapFaultDone, doneErrMessage, soapFaultMessage, hm]

/-- C10: construction writes the defaulted/derived values for
`authorizationURL`, `tokenURL`, `scopeSeparator`, `customHeaders` and
`apiEntryPoint` into the caller's options object, modifies no other key,
and reusing the mutated object for a second construction with a different
tenant silently keeps the first tenant's URLs (the stored URLs are truthy,
so the `||` defaulting keeps them). -/
theorem MS_mutates_options (o : JsObj) :
    (lookupKV (MicrosoftStrategy (some o)).1 "authorizationURL" =
        some (jsOr (lookupKV o "authorizationURL")
          (Json.str (authorizeURLFor (tenantOf o)))) ∧
     lookupKV (MicrosoftStrategy (some o)).1 "tokenURL" =
        some (jsOr (lookupKV o "tokenURL")
          (Json.str (tokenURLFor (tenantOf o)))) ∧
     lookupKV (MicrosoftStrategy (some o)).1 "scopeSeparator" =
        some (jsOr (lookupKV o "scopeSeparator") (Json.str " ")) ∧
     lookupKV (MicrosoftStrategy (some o)).1 "customHeaders" =
        some (jsOr (lookupKV o "customHeaders") (Json.obj [])) ∧
     lookupKV (MicrosoftStrategy (some o)).1 "apiEntryPoint" =
        some (jsOr (lookupKV o "apiEntryPoint")
          (Json.str "https://graph.microsoft.com"))) ∧
    (∀ k, k ∉ (["authorizationURL", "tokenURL", "scopeSeparator",
        "customHeaders", "apiEntryPoint"] : List String) →
      lookupKV (MicrosoftStrategy (some o)).1 k = lookupKV o k) ∧
    (∀ t, lookupKV (MicrosoftStrategy (some
        (setKV (MicrosoftStrategy (some o)).1 "tenant" t))).1 "authorizationURL" =
          lookupKV (MicrosoftStrategy (some o)).1 "authorizationURL" ∧
      lookupKV (MicrosoftStrategy (some
        (setKV (MicrosoftStrategy (some o)).1 "tenant" t))).1 "tokenURL" =
          lookupKV (MicrosoftStrategy (some o)).1 "tokenURL") := by
  refine ⟨⟨lookup_MS_authorizationURL o, lookup_MS_tokenURL o,
    lookup_MS_scopeSeparator o, lookup_MS_customHeaders o,
    lookup_MS_apiEntryPoint o⟩, lookup_MS_frame o, ?_⟩
  intro t
  have hva : jsTruthy (jsOr (lookupKV o "authorizationURL")
      (Json.str (authorizeURLFor (tenantOf o)))) = true :=
    jsTruthy_jsOr _ _ (jsTruthy_authorizeURLFor _)
  have hvt : jsTruthy (jsOr (lookupKV o "tokenURL")
      (Json.str (tokenURLFor (tenantOf o)))) = true :=
    jsTruthy_jsOr _ _ (jsTruthy_tokenURLFor _)
  constructor
  · rw [lookup_MS_authorizationURL, lookupKV_setKV_other _ _ _ _ (by decide),
      lookup_MS_authorizationURL o, jsOr_of_truthy _ _ hva]
  · rw [lookup_MS_tokenURL, lookupKV_setKV_other _ _ _ _ (by decide),
      lookup_MS_tokenURL o, jsOr_of_truthy _ _ hvt]
